import Mathlib

/-!
Verification of `calendly_license_monitor.py`: a script that fetches Calendly
organization members and Okta group members (both as sets of lower-cased
emails, via paginated HTTP APIs), computes license usage against a fixed
total of 65 licenses, and posts an alert message to a Slack webhook.

The Python source is shallowly embedded below: pure functions become Lean
functions; the `while url:` pagination loops become fuel-indexed recursions
over a stream of server responses (`Nat → Response`); HTTP requests are
recorded in an event trace; exceptions (`raise_for_status`, `KeyError`,
`ValueError`) become explicit error results.
-/

/-- Events recording the HTTP requests the script issues, in order. -/
inductive Ev
  | calendlyGet
  | oktaGet
  | webhookPost
deriving DecidableEq, Repr

/-- Exceptions a fetcher can raise: `raise_for_status` on a non-success
HTTP status, a `KeyError` from a missing nested field, or non-termination
of the `while url:` loop within the given fuel. -/
inductive FetchErr
  | httpError (status : Nat)
  | keyError
  | outOfFuel
deriving DecidableEq, Repr

instance {ε α : Type} [DecidableEq ε] [DecidableEq α] : DecidableEq (Except ε α)
  | Except.ok x, Except.ok y =>
    if h : x = y then isTrue (by rw [h]) else isFalse (fun hc => h (by injection hc))
  | Except.ok _, Except.error _ => isFalse (fun hc => Except.noConfusion hc)
  | Except.error _, Except.ok _ => isFalse (fun hc => Except.noConfusion hc)
  | Except.error x, Except.error y =>
    if h : x = y then isTrue (by rw [h]) else isFalse (fun hc => h (by injection hc))

/-- Python truthiness of an `Optional[str]`: `None` and `""` are falsy.
This is the test of `while url:` and of `all([...])` in `main`. -/
def pyTruthy : Option String → Bool
  | none => false
  | some s => !(s == "")

/-- Models Python `str.lower()` (they agree on the ASCII emails at issue):
lower-cases the string character by character. -/
def pyLower (s : String) : String :=
  ⟨s.data.map Char.toLower⟩

/-! ## Calendly fetcher (source lines 40-53)

A response body is `data`; `data.get("collection", [])` is a list of member
records; `data.get("pagination", {}).get("next_page")` is the continuation
URL. A member record carries the nested path `u["user"]["email"]`, any part
of which may be absent (absence raises `KeyError`). -/

structure CUser where
  email : Option String
deriving DecidableEq, Repr

structure CMember where
  user : Option CUser
deriving DecidableEq, Repr

structure CPagination where
  next_page : Option String
deriving DecidableEq, Repr

structure CalendlyBody where
  collection : Option (List CMember)
  pagination : Option CPagination
deriving DecidableEq, Repr

structure CalendlyResp where
  status : Nat
  body : CalendlyBody
deriving DecidableEq, Repr

/-- `data.get("pagination", {}).get("next_page")`. -/
def nextPageUrl (r : CalendlyResp) : Option String :=
  r.body.pagination.bind (fun p => p.next_page)

/-- The set comprehension `{u["user"]["email"].lower() for u in users}`:
extracts and lower-cases every member's nested email, failing (`none`,
modelling `KeyError`) when the nested field is absent. -/
def extractEmails : List CMember → Option (List String)
  | [] => some []
  | m :: rest =>
    match m.user.bind (fun u => u.email) with
    | none => none
    | some e => (extractEmails rest).map (fun l => pyLower e :: l)

/-- The `while url:` loop of `fetch_calendly_users`, reading the `i`-th,
`i+1`-th, ... responses from the stream `cp`. Each iteration issues one GET
(recorded in the trace), raises on a non-success status, appends
`data.get("collection", [])` to the accumulated member list, and continues
while the next-page URL is truthy. `fuel` bounds the number of iterations;
exhausting it models non-termination. -/
def calendlyLoop (cp : Nat → CalendlyResp) : Nat → Nat → List Ev × Except FetchErr (List CMember)
  | 0, _ => ([], Except.error FetchErr.outOfFuel)
  | fuel + 1, i =>
    let r := cp i
    if 400 ≤ r.status then
      ([Ev.calendlyGet], Except.error (FetchErr.httpError r.status))
    else
      let col := r.body.collection.getD []
      if pyTruthy (nextPageUrl r) then
        match calendlyLoop cp fuel (i + 1) with
        | (tr, Except.ok rest) => (Ev.calendlyGet :: tr, Except.ok (col ++ rest))
        | (tr, Except.error e) => (Ev.calendlyGet :: tr, Except.error e)
      else
        ([Ev.calendlyGet], Except.ok col)

/-- `fetch_calendly_users`: runs the pagination loop from the first page
(the initial URL is a nonempty f-string, so the loop always runs at least
once), then extracts the lower-cased email set from the accumulated
members. -/
def fetch_calendly_users (cp : Nat → CalendlyResp) (fuel : Nat) :
    List Ev × Except FetchErr (Finset String) :=
  match calendlyLoop cp fuel 0 with
  | (tr, Except.error e) => (tr, Except.error e)
  | (tr, Except.ok users) =>
    match extractEmails users with
    | none => (tr, Except.error FetchErr.keyError)
    | some es => (tr, Except.ok es.toFinset)

/-! ## Okta fetcher (source lines 55-71)

The body is a JSON array of user records with nested path
`user["profile"]["email"]`; the continuation URL comes from the response's
`Link: rel="next"` header (`response.links.get("next", {}).get("url")`).
The loop builds a dict keyed by lower-cased email and returns its key set,
so the result is the union of the pages' lower-cased emails. -/

structure OktaProfile where
  email : Option String
deriving DecidableEq, Repr

structure OktaUser where
  profile : Option OktaProfile
deriving DecidableEq, Repr

structure OktaResp where
  status : Nat
  body : List OktaUser
  linkNext : Option String
deriving DecidableEq, Repr

/-- The per-page dict-filling loop `for user in data: users[email] = user`,
with `email = user["profile"]["email"].lower()`; fails (`KeyError`) when
the nested field is absent. -/
def oktaExtract : List OktaUser → Option (List String)
  | [] => some []
  | u :: rest =>
    match u.profile.bind (fun p => p.email) with
    | none => none
    | some e => (oktaExtract rest).map (fun l => pyLower e :: l)

/-- The `while url:` loop of `fetch_okta_group_members`: one GET per
iteration, `raise_for_status`, dict update with the page's lower-cased
emails (key-set union), continuing while the link-header URL is truthy. -/
def oktaLoop (op : Nat → OktaResp) : Nat → Nat → List Ev × Except FetchErr (Finset String)
  | 0, _ => ([], Except.error FetchErr.outOfFuel)
  | fuel + 1, i =>
    let r := op i
    if 400 ≤ r.status then
      ([Ev.oktaGet], Except.error (FetchErr.httpError r.status))
    else
      match oktaExtract r.body with
      | none => ([Ev.oktaGet], Except.error FetchErr.keyError)
      | some emails =>
        if pyTruthy r.linkNext then
          match oktaLoop op fuel (i + 1) with
          | (tr, Except.ok rest) => (Ev.oktaGet :: tr, Except.ok (emails.toFinset ∪ rest))
          | (tr, Except.error e) => (Ev.oktaGet :: tr, Except.error e)
        else
          ([Ev.oktaGet], Except.ok emails.toFinset)

/-- `fetch_okta_group_members`: the loop from the first page (the initial
URL is a nonempty f-string), returning `set(users.keys())`. -/
def fetch_okta_group_members (op : Nat → OktaResp) (fuel : Nat) :
    List Ev × Except FetchErr (Finset String) :=
  oktaLoop op fuel 0

/-! ## Reconciler (source lines 37-38 and 73-82) -/

/-- `TOTAL_LICENSES = 65`. -/
def TOTAL_LICENSES : Nat := 65

/-- The license tally returned by `calculate_license_counts`:
`licenses_available` is a Python `int` and can go negative. -/
structure LicenseCounts where
  total_licenses : Nat
  licenses_used : Nat
  licenses_available : Int
deriving DecidableEq, Repr

/-- `calculate_license_counts`: intersection size as used count,
`TOTAL_LICENSES - licenses_used` as available count. -/
def calculate_license_counts (calendly_users okta_users : Finset String) : LicenseCounts :=
  let matched_users := calendly_users ∩ okta_users
  let licenses_used := matched_users.card
  { total_licenses := TOTAL_LICENSES
    licenses_used := licenses_used
    licenses_available := (TOTAL_LICENSES : Int) - licenses_used }

/-! ## Message generation (source lines 115-130) -/

/-- The two alert templates of `main`. -/
inductive Template
  | overage
  | normal
deriving DecidableEq, Repr

/-- The branch `if license_counts["licenses_used"] > TOTAL_LICENSES`. -/
def selectTemplate (lc : LicenseCounts) : Template :=
  if lc.licenses_used > TOTAL_LICENSES then Template.overage else Template.normal

/-- The overage f-string (source lines 116-122), character for character. -/
def overageMessage (lc : LicenseCounts) : String :=
  ":rotating_light:calendly: *Calendly License Alert* :calendly::rotating_light:\n" ++
  "Used Licenses: " ++ toString lc.licenses_used ++ "\n" ++
  "Total Licenses: " ++ toString lc.total_licenses ++ "\n" ++
  "Overage: " ++ toString ((lc.licenses_used : Int) - (TOTAL_LICENSES : Int)) ++ "\n" ++
  "*Immediate action required to resolve the overage.*"

/-- The within-limit f-string (source lines 124-130). -/
def normalMessage (lc : LicenseCounts) : String :=
  ":calendly: *Calendly License Report* :calendly:\n" ++
  "Used Licenses: " ++ toString lc.licenses_used ++ "\n" ++
  "Total Licenses: " ++ toString lc.total_licenses ++ "\n" ++
  "Available Licenses: " ++ toString lc.licenses_available ++ "\n" ++
  "*All licenses are within the allocated limit.*"

/-- The rendered alert message: template selection plus rendering. -/
def alertMessage (lc : LicenseCounts) : String :=
  match selectTemplate lc with
  | Template.overage => overageMessage lc
  | Template.normal => normalMessage lc

/-! ## Notifier and orchestrator (source lines 84-134) -/

/-- `post_to_slack`: one POST to the webhook, then `raise_for_status`. -/
def post_to_slack (webhookStatus : Nat) (_message : String) :
    List Ev × Except FetchErr Unit :=
  if 400 ≤ webhookStatus then
    ([Ev.webhookPost], Except.error (FetchErr.httpError webhookStatus))
  else
    ([Ev.webhookPost], Except.ok ())

/-- The six environment variables read by `main`; `none` models an absent
variable, `some ""` a present-but-empty one. -/
structure Env where
  CALENDLY_API_TOKEN : Option String
  CALENDLY_ORG_URL : Option String
  OKTA_API_TOKEN : Option String
  OKTA_BASE_URL : Option String
  OKTA_CALENDLY_GROUP_ID : Option String
  SLACK_WEBHOOK_URL : Option String
deriving DecidableEq, Repr

/-- `all([calendly_token, calendly_org_url, okta_token, okta_base_url,
group_id, slack_webhook_url])` with Python truthiness. -/
def envAll (e : Env) : Bool :=
  pyTruthy e.CALENDLY_API_TOKEN && pyTruthy e.CALENDLY_ORG_URL &&
  pyTruthy e.OKTA_API_TOKEN && pyTruthy e.OKTA_BASE_URL &&
  pyTruthy e.OKTA_CALENDLY_GROUP_ID && pyTruthy e.SLACK_WEBHOOK_URL

/-- The external world `main` runs against: the Calendly server's response
stream, the Okta server's response stream, and the webhook's reply status. -/
structure World where
  calendly : Nat → CalendlyResp
  okta : Nat → OktaResp
  webhookStatus : Nat

/-- The possible outcomes of one run of `main`: the `ValueError` on missing
configuration, a propagated exception from either fetcher or the webhook
post, or a successfully sent message. -/
inductive MainOutcome
  | envError
  | calendlyError (e : FetchErr)
  | oktaError (e : FetchErr)
  | webhookError (e : FetchErr)
  | sent (message : String)
deriving DecidableEq, Repr

namespace Monitor

/-- `main`: check the six environment variables, fetch Calendly users,
fetch Okta group members, compute the tally, render the alert, post it.
Returns the outcome together with the trace of HTTP requests issued. -/
def main (env : Env) (w : World) (fuel : Nat) : List Ev × MainOutcome :=
  if envAll env then
    match fetch_calendly_users w.calendly fuel with
    | (tr1, Except.error e) => (tr1, MainOutcome.calendlyError e)
    | (tr1, Except.ok calendly_users) =>
      match fetch_okta_group_members w.okta fuel with
      | (tr2, Except.error e) => (tr1 ++ tr2, MainOutcome.oktaError e)
      | (tr2, Except.ok okta_users) =>
        let lc := calculate_license_counts calendly_users okta_users
        let msg := alertMessage lc
        match post_to_slack w.webhookStatus msg with
        | (tr3, Except.error e) => (tr1 ++ tr2 ++ tr3, MainOutcome.webhookError e)
        | (tr3, Except.ok _) => (tr1 ++ tr2 ++ tr3, MainOutcome.sent msg)
  else
    ([], MainOutcome.envError)

end Monitor

/-- Substring test used to state the message-content claims: `pat` occurs
in `s` (as a contiguous run of characters). -/
def listStartsWith : List Char → List Char → Bool
  | [], _ => true
  | _ :: _, [] => false
  | p :: ps, c :: cs => p == c && listStartsWith ps cs

/-- Whether `pat` is a contiguous substring of `s`. -/
def strContains (s pat : String) : Bool :=
  go s.data
where
  go : List Char → Bool
  | [] => listStartsWith pat.data []
  | c :: rest => listStartsWith pat.data (c :: rest) || go rest

/-! ## Concrete fixtures used to instantiate the claims -/

/-- A 3-page Calendly response sequence: pages 0 and 1 carry a next-page
URL, page 2 does not. -/
def cpFix : Nat → CalendlyResp
  | 0 => { status := 200,
           body := { collection := some [{ user := some { email := some "A1@x.com" } }],
                     pagination := some { next_page := some "page2" } } }
  | 1 => { status := 200,
           body := { collection := some [{ user := some { email := some "b2@x.com" } }],
                     pagination := some { next_page := some "page3" } } }
  | _ => { status := 200,
           body := { collection := some [{ user := some { email := some "c3@x.com" } }],
                     pagination := none } }

/-- The per-page lower-cased emails of `cpFix`. -/
def cesFix : Nat → List String
  | 0 => ["a1@x.com"]
  | 1 => ["b2@x.com"]
  | _ => ["c3@x.com"]

/-- A 3-page Okta response sequence: pages 0 and 1 carry a `rel="next"`
link, page 2 does not. -/
def opFix : Nat → OktaResp
  | 0 => { status := 200,
           body := [{ profile := some { email := some "D4@x.com" } }],
           linkNext := some "okta2" }
  | 1 => { status := 200,
           body := [{ profile := some { email := some "e5@x.com" } }],
           linkNext := some "okta3" }
  | _ => { status := 200,
           body := [{ profile := some { email := some "f6@x.com" } }],
           linkNext := none }

/-- The per-page lower-cased emails of `opFix`. -/
def oesFix : Nat → List String
  | 0 => ["d4@x.com"]
  | 1 => ["e5@x.com"]
  | _ => ["f6@x.com"]

/-- An environment with every variable set to a nonempty string. -/
def envFull : Env :=
  { CALENDLY_API_TOKEN := some "tok", CALENDLY_ORG_URL := some "orgurl",
    OKTA_API_TOKEN := some "okta-tok", OKTA_BASE_URL := some "baseurl",
    OKTA_CALENDLY_GROUP_ID := some "gid", SLACK_WEBHOOK_URL := some "hook" }

/-- An environment whose Calendly API token is absent. -/
def envMissing : Env :=
  { envFull with CALENDLY_API_TOKEN := none }

/-- An environment whose Calendly API token is set to the empty string. -/
def envEmpty : Env :=
  { envFull with CALENDLY_API_TOKEN := some "" }

/-- A well-behaved world built from the 3-page fixtures. -/
def wFix : World :=
  { calendly := cpFix, okta := opFix, webhookStatus := 200 }

/-- A world whose Calendly API answers every request with HTTP 500. -/
def wBad : World :=
  { calendly := fun _ =>
      { status := 500, body := { collection := some [], pagination := none } },
    okta := opFix, webhookStatus := 200 }

/-- A single Calendly page whose body has neither a `collection` nor a
`pagination` key. -/
def cpBare : Nat → CalendlyResp :=
  fun _ => { status := 200, body := { collection := none, pagination := none } }

/-- A single Calendly page carrying the mixed-case email `User@X.com`. -/
def cpCase : Nat → CalendlyResp :=
  fun _ => { status := 200,
             body := { collection := some [{ user := some { email := some "User@X.com" } }],
                       pagination := none } }

/-- A single Okta page carrying the lower-case email `user@x.com`. -/
def opCase : Nat → OktaResp :=
  fun _ => { status := 200,
             body := [{ profile := some { email := some "user@x.com" } }],
             linkNext := none }

/-- Seventy distinct email strings, as a finite set. -/
def bigSet : Finset String :=
  ((List.range 70).map (fun i => toString i ++ "@x.com")).toFinset

/-! ## Claims -/

/-- Claim C1: `calculate_license_counts` is a pure function returning
exactly `{total_licenses = 65, licenses_used = |A ∩ B|,
licenses_available = 65 - |A ∩ B|}`; on A = {a@x.com, b@x.com} and
B = {b@x.com, c@x.com} it returns used = 1 and available = 64. -/
theorem calculate_license_counts_spec :
    (∀ A B : Finset String, calculate_license_counts A B =
      { total_licenses := 65, licenses_used := (A ∩ B).card,
        licenses_available := (65 : Int) - ((A ∩ B).card : Int) }) ∧
    calculate_license_counts {"a@x.com", "b@x.com"} {"b@x.com", "c@x.com"} =
      { total_licenses := 65, licenses_used := 1, licenses_available := 64 } := by
  refine ⟨fun A B => rfl, ?_⟩
  decide

/-- Claim C2: the template selection in `main` is exhaustive and mutually
exclusive: the overage template is selected exactly when
`licenses_available` is negative (equivalently `licenses_used > 65`), the
normal template exactly when `licenses_used ≤ 65`, and never both. -/
theorem template_selection_spec (A B : Finset String) :
    ((calculate_license_counts A B).licenses_available < 0 ↔
      selectTemplate (calculate_license_counts A B) = Template.overage) ∧
    ((calculate_license_counts A B).licenses_used ≤ TOTAL_LICENSES ↔
      selectTemplate (calculate_license_counts A B) = Template.normal) ∧
    ¬(selectTemplate (calculate_license_counts A B) = Template.overage ∧
      selectTemplate (calculate_license_counts A B) = Template.normal) := by
  simp only [calculate_license_counts, selectTemplate, TOTAL_LICENSES]
  by_cases h : (A ∩ B).card > 65 <;> simp [h]
  all_goals omega

/-- Claim C6: the used count is symmetric in the two sets and bounded by
the smaller set's size. -/
theorem used_count_symm_and_bounded (A B : Finset String) :
    (calculate_license_counts A B).licenses_used =
      (calculate_license_counts B A).licenses_used ∧
    (calculate_license_counts A B).licenses_used ≤ min A.card B.card := by
  constructor
  · simp [calculate_license_counts, Finset.inter_comm]
  · simp only [calculate_license_counts]
    exact le_min (Finset.card_le_card (Finset.inter_subset_left))
      (Finset.card_le_card (Finset.inter_subset_right))

/-! ## Pagination lemmas -/

/-- Peeling the first index off a `flatMap` over `List.range`. -/
theorem flatMap_range_succ_left {α : Type} (f : Nat → List α) (n : Nat) :
    (List.range (n + 1)).flatMap f = f 0 ++ (List.range n).flatMap (fun j => f (j + 1)) := by
  rw [List.range_succ_eq_map, List.flatMap_cons, List.flatMap_map]

/-- `extractEmails` distributes over list append. -/
theorem extractEmails_append (a b : List CMember) (ea eb : List String)
    (ha : extractEmails a = some ea) (hb : extractEmails b = some eb) :
    extractEmails (a ++ b) = some (ea ++ eb) := by
  induction a generalizing ea with
  | nil =>
    simp only [extractEmails, Option.some.injEq] at ha
    subst ha
    simpa using hb
  | cons m rest ih =>
    rw [List.cons_append]
    simp only [extractEmails] at ha ⊢
    cases hm : m.user.bind (fun u => u.email) with
    | none => rw [hm] at ha; exact absurd ha (by simp)
    | some e =>
      simp only [hm] at ha ⊢
      cases hr : extractEmails rest with
      | none => rw [hr] at ha; exact absurd ha (by simp)
      | some er =>
        rw [hr, Option.map_some'] at ha
        have hea : ea = pyLower e :: er := (Option.some.inj ha).symm
        subst hea
        rw [ih er hr, Option.map_some']
        rfl

/-- `extractEmails` over the concatenation of pages `0..n`, given that it
succeeds on each page separately. -/
theorem extractEmails_flatMap (cols : Nat → List CMember) (ces : Nat → List String) :
    ∀ n, (∀ j, j ≤ n → extractEmails (cols j) = some (ces j)) →
      extractEmails ((List.range (n + 1)).flatMap cols) =
        some ((List.range (n + 1)).flatMap ces) := by
  intro n
  induction n generalizing cols ces with
  | zero =>
    intro h
    rw [flatMap_range_succ_left, flatMap_range_succ_left]
    simp only [List.range_zero, List.flatMap_nil, List.append_nil]
    exact h 0 (by omega)
  | succ m ih =>
    intro h
    rw [flatMap_range_succ_left cols, flatMap_range_succ_left ces]
    exact extractEmails_append _ _ _ _ (h 0 (by omega))
      (ih (fun j => cols (j + 1)) (fun j => ces (j + 1)) (fun j hj => h (j + 1) (by omega)))

/-- Behaviour of the Calendly pagination loop on a response stream whose
first stop (falsy next-page URL) from index `i` is at index `i + k`, with
success statuses throughout: one GET per page, members accumulated across
all `k + 1` pages visited. -/
theorem calendlyLoop_spec (cp : Nat → CalendlyResp) (k : Nat) :
    ∀ (i fuel : Nat),
      pyTruthy (nextPageUrl (cp (i + k))) = false →
      (∀ j, j < k → pyTruthy (nextPageUrl (cp (i + j))) = true) →
      (∀ j, j ≤ k → (cp (i + j)).status < 400) →
      k < fuel →
      calendlyLoop cp fuel i =
        (List.replicate (k + 1) Ev.calendlyGet,
         Except.ok ((List.range (k + 1)).flatMap
           (fun j => (cp (i + j)).body.collection.getD []))) := by
  induction k with
  | zero =>
    intro i fuel hstop hcont hok hfuel
    obtain ⟨f, rfl⟩ : ∃ f, fuel = f + 1 := ⟨fuel - 1, by omega⟩
    have h0 : ¬ 400 ≤ (cp i).status := by
      have := hok 0 (by omega)
      rw [Nat.add_zero] at this
      omega
    rw [Nat.add_zero] at hstop
    rw [flatMap_range_succ_left]
    simp [calendlyLoop, h0, hstop]
  | succ m ih =>
    intro i fuel hstop hcont hok hfuel
    obtain ⟨f, rfl⟩ : ∃ f, fuel = f + 1 := ⟨fuel - 1, by omega⟩
    have h0 : ¬ 400 ≤ (cp i).status := by
      have := hok 0 (by omega)
      rw [Nat.add_zero] at this
      omega
    have hc0 : pyTruthy (nextPageUrl (cp i)) = true := by
      have := hcont 0 (by omega)
      rw [Nat.add_zero] at this
      exact this
    have hrec := ih (i + 1) f
      (by rw [Nat.add_assoc i 1 m, Nat.add_comm 1 m]; exact hstop)
      (fun j hj => by
        rw [Nat.add_assoc i 1 j, Nat.add_comm 1 j]
        exact hcont (j + 1) (by omega))
      (fun j hj => by
        rw [Nat.add_assoc i 1 j, Nat.add_comm 1 j]
        exact hok (j + 1) (by omega))
      (by omega)
    have hshift : (fun j => (cp (i + 1 + j)).body.collection.getD []) =
        (fun j => (cp (i + (j + 1))).body.collection.getD []) := by
      funext j
      rw [Nat.add_assoc, Nat.add_comm 1 j]
    have key : calendlyLoop cp (f + 1) i =
        (Ev.calendlyGet :: List.replicate (m + 1) Ev.calendlyGet,
         Except.ok ((cp i).body.collection.getD [] ++
           (List.range (m + 1)).flatMap
             (fun j => (cp (i + 1 + j)).body.collection.getD []))) := by
      simp [calendlyLoop, h0, hc0, hrec]
    rw [key, hshift,
      flatMap_range_succ_left (fun j => (cp (i + j)).body.collection.getD []) (m + 1)]
    simp [List.replicate_succ]

/-- Behaviour of the Okta pagination loop on a response stream whose first
stop (falsy link-header URL) from index `i` is at index `i + k`, with
success statuses and successful email extraction throughout: one GET per
page, lower-cased emails unioned across all `k + 1` pages visited. -/
theorem oktaLoop_spec (op : Nat → OktaResp) (oes : Nat → List String) (k : Nat) :
    ∀ (i fuel : Nat),
      pyTruthy ((op (i + k)).linkNext) = false →
      (∀ j, j < k → pyTruthy ((op (i + j)).linkNext) = true) →
      (∀ j, j ≤ k → (op (i + j)).status < 400) →
      (∀ j, j ≤ k → oktaExtract ((op (i + j)).body) = some (oes (i + j))) →
      k < fuel →
      oktaLoop op fuel i =
        (List.replicate (k + 1) Ev.oktaGet,
         Except.ok ((List.range (k + 1)).flatMap (fun j => oes (i + j))).toFinset) := by
  induction k with
  | zero =>
    intro i fuel hstop hcont hok hex hfuel
    obtain ⟨f, rfl⟩ : ∃ f, fuel = f + 1 := ⟨fuel - 1, by omega⟩
    have h0 : ¬ 400 ≤ (op i).status := by
      have := hok 0 (by omega)
      rw [Nat.add_zero] at this
      omega
    have hex0 : oktaExtract ((op i).body) = some (oes i) := by
      have := hex 0 (by omega)
      rw [Nat.add_zero] at this
      exact this
    rw [Nat.add_zero] at hstop
    rw [flatMap_range_succ_left]
    simp [oktaLoop, h0, hex0, hstop]
  | succ m ih =>
    intro i fuel hstop hcont hok hex hfuel
    obtain ⟨f, rfl⟩ : ∃ f, fuel = f + 1 := ⟨fuel - 1, by omega⟩
    have h0 : ¬ 400 ≤ (op i).status := by
      have := hok 0 (by omega)
      rw [Nat.add_zero] at this
      omega
    have hex0 : oktaExtract ((op i).body) = some (oes i) := by
      have := hex 0 (by omega)
      rw [Nat.add_zero] at this
      exact this
    have hc0 : pyTruthy ((op i).linkNext) = true := by
      have := hcont 0 (by omega)
      rw [Nat.add_zero] at this
      exact this
    have hrec := ih (i + 1) f
      (by rw [Nat.add_assoc i 1 m, Nat.add_comm 1 m]; exact hstop)
      (fun j hj => by
        rw [Nat.add_assoc i 1 j, Nat.add_comm 1 j]
        exact hcont (j + 1) (by omega))
      (fun j hj => by
        rw [Nat.add_assoc i 1 j, Nat.add_comm 1 j]
        exact hok (j + 1) (by omega))
      (fun j hj => by
        rw [Nat.add_assoc i 1 j, Nat.add_comm 1 j]
        exact hex (j + 1) (by omega))
      (by omega)
    have hshift : (fun j => oes (i + 1 + j)) = (fun j => oes (i + (j + 1))) := by
      funext j
      rw [Nat.add_assoc, Nat.add_comm 1 j]
    have key : oktaLoop op (f + 1) i =
        (Ev.oktaGet :: List.replicate (m + 1) Ev.oktaGet,
         Except.ok ((oes i).toFinset ∪
           ((List.range (m + 1)).flatMap (fun j => oes (i + 1 + j))).toFinset)) := by
      simp [oktaLoop, h0, hex0, hc0, hrec]
    rw [key, hshift,
      flatMap_range_succ_left (fun j => oes (i + j)) (m + 1), List.toFinset_append]
    simp [List.replicate_succ]

/-- Claim C4: for every paginated response sequence whose continuation
pointer (body field `pagination.next_page` for the Calendly fetcher, the
`Link rel="next"` header URL for the Okta fetcher) is eventually absent or
empty (falsy at page `k`, truthy before), the pagination loop terminates
and the returned set accumulates the member emails of all pages visited. -/
theorem pagination_terminates_and_accumulates
    (cp : Nat → CalendlyResp) (op : Nat → OktaResp)
    (ces oes : Nat → List String) (k k2 fuel : Nat)
    (hstop : pyTruthy (nextPageUrl (cp k)) = false)
    (hcont : ∀ j, j < k → pyTruthy (nextPageUrl (cp j)) = true)
    (hok : ∀ j, j ≤ k → (cp j).status < 400)
    (hex : ∀ j, j ≤ k → extractEmails ((cp j).body.collection.getD []) = some (ces j))
    (hfuel : k < fuel)
    (hstop2 : pyTruthy ((op k2).linkNext) = false)
    (hcont2 : ∀ j, j < k2 → pyTruthy ((op j).linkNext) = true)
    (hok2 : ∀ j, j ≤ k2 → (op j).status < 400)
    (hex2 : ∀ j, j ≤ k2 → oktaExtract ((op j).body) = some (oes j))
    (hfuel2 : k2 < fuel) :
    fetch_calendly_users cp fuel =
      (List.replicate (k + 1) Ev.calendlyGet,
       Except.ok ((List.range (k + 1)).flatMap ces).toFinset) ∧
    fetch_okta_group_members op fuel =
      (List.replicate (k2 + 1) Ev.oktaGet,
       Except.ok ((List.range (k2 + 1)).flatMap oes).toFinset) := by
  constructor
  · have hloop := calendlyLoop_spec cp k 0 fuel
      (by simpa using hstop)
      (fun j hj => by simpa using hcont j hj)
      (fun j hj => by simpa using hok j hj)
      hfuel
    have hzero : (fun j => (cp (0 + j)).body.collection.getD []) =
        (fun j => (cp j).body.collection.getD []) := by
      funext j
      rw [Nat.zero_add]
    rw [hzero] at hloop
    have hext := extractEmails_flatMap (fun j => (cp j).body.collection.getD []) ces k hex
    simp [fetch_calendly_users, hloop, hext]
  · have hloop := oktaLoop_spec op oes k2 0 fuel
      (by simpa using hstop2)
      (fun j hj => by simpa using hcont2 j hj)
      (fun j hj => by simpa using hok2 j hj)
      (fun j hj => by simpa using hex2 j hj)
      hfuel2
    have hzero : (fun j => oes (0 + j)) = oes := by
      funext j
      rw [Nat.zero_add]
    rw [hzero] at hloop
    simpa [fetch_okta_group_members] using hloop

/-- Witness for claim C4: the 3-page fixtures. Both fetchers stop at the
third page and return the union of the three pages' lower-cased emails. -/
theorem pagination_terminates_and_accumulates_witness :
    pyTruthy (nextPageUrl (cpFix 2)) = false ∧
    pyTruthy ((opFix 2).linkNext) = false ∧
    fetch_calendly_users cpFix 3 =
      (List.replicate 3 Ev.calendlyGet,
       Except.ok ((List.range 3).flatMap cesFix).toFinset) ∧
    fetch_okta_group_members opFix 3 =
      (List.replicate 3 Ev.oktaGet,
       Except.ok ((List.range 3).flatMap oesFix).toFinset) := by
  have h := pagination_terminates_and_accumulates cpFix opFix cesFix oesFix 2 2 3
    (by decide) (by decide) (by decide) (by decide) (by decide)
    (by decide) (by decide) (by decide) (by decide) (by decide)
  exact ⟨by decide, by decide, h.1, h.2⟩

/-! ## Trace lemmas: each fetcher's loop only issues its own GETs -/

/-- Every event traced by the Calendly loop is a Calendly GET. -/
theorem calendlyLoop_trace (cp : Nat → CalendlyResp) :
    ∀ (fuel i : Nat) (e : Ev), e ∈ (calendlyLoop cp fuel i).1 → e = Ev.calendlyGet := by
  intro fuel
  induction fuel with
  | zero =>
    intro i e h
    simp [calendlyLoop] at h
  | succ f ih =>
    intro i e h
    by_cases h4 : 400 ≤ (cp i).status
    · simp [calendlyLoop, h4] at h
      exact h
    · by_cases hc : pyTruthy (nextPageUrl (cp i)) = true
      · rcases hl : calendlyLoop cp f (i + 1) with ⟨tr, res⟩
        cases res with
        | ok rest =>
          simp [calendlyLoop, h4, hc, hl] at h
          rcases h with h | h
          · exact h
          · exact ih (i + 1) e (by rw [hl]; exact h)
        | error err =>
          simp [calendlyLoop, h4, hc, hl] at h
          rcases h with h | h
          · exact h
          · exact ih (i + 1) e (by rw [hl]; exact h)
      · simp [calendlyLoop, h4, hc] at h
        exact h

/-- Every event traced by the Okta loop is an Okta GET. -/
theorem oktaLoop_trace (op : Nat → OktaResp) :
    ∀ (fuel i : Nat) (e : Ev), e ∈ (oktaLoop op fuel i).1 → e = Ev.oktaGet := by
  intro fuel
  induction fuel with
  | zero =>
    intro i e h
    simp [oktaLoop] at h
  | succ f ih =>
    intro i e h
    by_cases h4 : 400 ≤ (op i).status
    · simp [oktaLoop, h4] at h
      exact h
    · cases hx : oktaExtract (op i).body with
      | none =>
        simp [oktaLoop, h4, hx] at h
        exact h
      | some emails =>
        by_cases hc : pyTruthy (op i).linkNext = true
        · rcases hl : oktaLoop op f (i + 1) with ⟨tr, res⟩
          cases res with
          | ok rest =>
            simp [oktaLoop, h4, hx, hc, hl] at h
            rcases h with h | h
            · exact h
            · exact ih (i + 1) e (by rw [hl]; exact h)
          | error err =>
            simp [oktaLoop, h4, hx, hc, hl] at h
            rcases h with h | h
            · exact h
            · exact ih (i + 1) e (by rw [hl]; exact h)
        · simp [oktaLoop, h4, hx, hc] at h
          exact h

/-- Every event traced by `fetch_calendly_users` is a Calendly GET. -/
theorem fetch_calendly_users_trace (cp : Nat → CalendlyResp) (fuel : Nat) (e : Ev)
    (h : e ∈ (fetch_calendly_users cp fuel).1) : e = Ev.calendlyGet := by
  rcases hl : calendlyLoop cp fuel 0 with ⟨tr, res⟩
  have htr : e ∈ tr → e = Ev.calendlyGet := fun hm =>
    calendlyLoop_trace cp fuel 0 e (by rw [hl]; exact hm)
  cases res with
  | ok users =>
    cases hx : extractEmails users with
    | none =>
      simp [fetch_calendly_users, hl, hx] at h
      exact htr h
    | some es =>
      simp [fetch_calendly_users, hl, hx] at h
      exact htr h
  | error err =>
    simp [fetch_calendly_users, hl] at h
    exact htr h

/-- Every event traced by `fetch_okta_group_members` is an Okta GET. -/
theorem fetch_okta_group_members_trace (op : Nat → OktaResp) (fuel : Nat) (e : Ev)
    (h : e ∈ (fetch_okta_group_members op fuel).1) : e = Ev.oktaGet :=
  oktaLoop_trace op fuel 0 e h

/-- Claim C3: if any one of the six required environment variables is
absent, `main` fails with an error before any HTTP request (Calendly GET,
Okta GET, or webhook POST) is issued: the trace is empty. -/
theorem missing_env_aborts_before_http (env : Env) (w : World) (fuel : Nat)
    (h : env.CALENDLY_API_TOKEN = none ∨ env.CALENDLY_ORG_URL = none ∨
      env.OKTA_API_TOKEN = none ∨ env.OKTA_BASE_URL = none ∨
      env.OKTA_CALENDLY_GROUP_ID = none ∨ env.SLACK_WEBHOOK_URL = none) :
    Monitor.main env w fuel = ([], MainOutcome.envError) := by
  have hall : envAll env = false := by
    rcases h with h | h | h | h | h | h <;> simp [envAll, h, pyTruthy]
  simp [Monitor.main, hall]

/-- Witness for claim C3: an environment lacking the Calendly token. -/
theorem missing_env_aborts_before_http_witness :
    envMissing.CALENDLY_API_TOKEN = none ∧
    Monitor.main envMissing wFix 3 = ([], MainOutcome.envError) :=
  ⟨rfl, missing_env_aborts_before_http envMissing wFix 3 (Or.inl rfl)⟩

/-- Claim C9: the configuration check uses truthiness, so a variable set to
the empty string is rejected exactly like an absent one, before any HTTP
request. -/
theorem empty_env_aborts_before_http (env : Env) (w : World) (fuel : Nat)
    (h : env.CALENDLY_API_TOKEN = some "" ∨ env.CALENDLY_ORG_URL = some "" ∨
      env.OKTA_API_TOKEN = some "" ∨ env.OKTA_BASE_URL = some "" ∨
      env.OKTA_CALENDLY_GROUP_ID = some "" ∨ env.SLACK_WEBHOOK_URL = some "") :
    Monitor.main env w fuel = ([], MainOutcome.envError) := by
  have he : pyTruthy (some "") = false := by decide
  have hall : envAll env = false := by
    rcases h with h | h | h | h | h | h <;> simp [envAll, h, he]
  simp [Monitor.main, hall]

/-- Witness for claim C9: an environment whose Calendly token is `""`. -/
theorem empty_env_aborts_before_http_witness :
    envEmpty.CALENDLY_API_TOKEN = some "" ∧
    Monitor.main envEmpty wFix 3 = ([], MainOutcome.envError) :=
  ⟨rfl, empty_env_aborts_before_http envEmpty wFix 3 (Or.inl rfl)⟩

/-- Claim C8: a non-success HTTP response from either source fetch aborts
the run before the webhook POST: no webhook POST ever appears in the
trace, so no alert is sent. -/
theorem upstream_error_aborts_without_alert (env : Env) (w : World) (fuel s : Nat)
    (h : (fetch_calendly_users w.calendly fuel).2 = Except.error (FetchErr.httpError s) ∨
      (fetch_okta_group_members w.okta fuel).2 = Except.error (FetchErr.httpError s)) :
    Ev.webhookPost ∉ (Monitor.main env w fuel).1 := by
  by_cases henv : envAll env = true
  case neg => simp [Monitor.main, henv]
  case pos =>
    rcases hc : fetch_calendly_users w.calendly fuel with ⟨tr1, r1⟩
    cases r1 with
    | error e1 =>
      have hmain : (Monitor.main env w fuel).1 = tr1 := by
        simp [Monitor.main, henv, hc]
      rw [hmain]
      intro hm
      have := fetch_calendly_users_trace w.calendly fuel Ev.webhookPost
        (by rw [hc]; exact hm)
      exact absurd this (by decide)
    | ok calA =>
      rcases ho : fetch_okta_group_members w.okta fuel with ⟨tr2, r2⟩
      cases r2 with
      | error e2 =>
        have hmain : (Monitor.main env w fuel).1 = tr1 ++ tr2 := by
          simp [Monitor.main, henv, hc, ho]
        rw [hmain]
        intro hm
        rcases List.mem_append.mp hm with hm | hm
        · have := fetch_calendly_users_trace w.calendly fuel Ev.webhookPost
            (by rw [hc]; exact hm)
          exact absurd this (by decide)
        · have := fetch_okta_group_members_trace w.okta fuel Ev.webhookPost
            (by rw [ho]; exact hm)
          exact absurd this (by decide)
      | ok oktaB =>
        rcases h with h | h
        · rw [hc] at h
          exact absurd h (by simp)
        · rw [ho] at h
          exact absurd h (by simp)

/-- Witness for claim C8: a world whose Calendly API answers 500; the run
never posts to the webhook. -/
theorem upstream_error_aborts_without_alert_witness :
    (fetch_calendly_users wBad.calendly 1).2 = Except.error (FetchErr.httpError 500) ∧
    Ev.webhookPost ∉ (Monitor.main envFull wBad 1).1 :=
  ⟨rfl, upstream_error_aborts_without_alert envFull wBad 1 500 (Or.inl rfl)⟩

/-- Claim C10: the Calendly fetcher is total over bodies lacking top-level
pagination structure: a missing `pagination` key (or a missing `next_page`
inside it) stops the loop rather than failing, a missing `collection` key
contributes zero members rather than failing, and only a member record
missing the nested `user.email` field makes extraction raise. -/
theorem calendly_total_on_missing_structure
    (cp : Nat → CalendlyResp) (i fuel : Nat) (h400 : (cp i).status < 400) :
    ((cp i).body.pagination = none →
      calendlyLoop cp (fuel + 1) i =
        ([Ev.calendlyGet], Except.ok ((cp i).body.collection.getD []))) ∧
    (nextPageUrl (cp i) = none →
      calendlyLoop cp (fuel + 1) i =
        ([Ev.calendlyGet], Except.ok ((cp i).body.collection.getD []))) ∧
    ((cp i).body.collection = none → (cp i).body.pagination = none →
      calendlyLoop cp (fuel + 1) i = ([Ev.calendlyGet], Except.ok [])) ∧
    (∀ l : List CMember,
      extractEmails l = none ↔ ∃ m ∈ l, m.user.bind (fun u => u.email) = none) := by
  have hnle : ¬ 400 ≤ (cp i).status := by omega
  refine ⟨?_, ?_, ?_, ?_⟩
  · intro hp
    have hn : nextPageUrl (cp i) = none := by simp [nextPageUrl, hp]
    simp [calendlyLoop, hnle, hn, pyTruthy]
  · intro hn
    simp [calendlyLoop, hnle, hn, pyTruthy]
  · intro hcol hp
    have hn : nextPageUrl (cp i) = none := by simp [nextPageUrl, hp]
    simp [calendlyLoop, hnle, hn, pyTruthy, hcol]
  · intro l
    induction l with
    | nil => simp [extractEmails]
    | cons m rest ih =>
      cases hm : m.user.bind (fun u => u.email) with
      | none =>
        simp only [extractEmails, hm]
        constructor
        · intro _
          exact ⟨m, List.mem_cons_self m rest, hm⟩
        · intro _
          trivial
      | some e =>
        simp only [extractEmails, hm, Option.map_eq_none', ih]
        constructor
        · rintro ⟨m2, hmem, hnone⟩
          exact ⟨m2, List.mem_cons_of_mem m hmem, hnone⟩
        · rintro ⟨m2, hmem, hnone⟩
          rcases List.mem_cons.mp hmem with rfl | hmem
          · rw [hm] at hnone
            cases hnone
          · exact ⟨m2, hmem, hnone⟩

/-- Witness for claim C10: a page with neither `collection` nor
`pagination` yields the empty member list without failing, and a member
lacking the nested email makes extraction fail. -/
theorem calendly_total_on_missing_structure_witness :
    (cpBare 0).status < 400 ∧
    ((cpBare 0).body.pagination = none →
      calendlyLoop cpBare 1 0 =
        ([Ev.calendlyGet], Except.ok ((cpBare 0).body.collection.getD []))) ∧
    (nextPageUrl (cpBare 0) = none →
      calendlyLoop cpBare 1 0 =
        ([Ev.calendlyGet], Except.ok ((cpBare 0).body.collection.getD []))) ∧
    ((cpBare 0).body.collection = none → (cpBare 0).body.pagination = none →
      calendlyLoop cpBare 1 0 = ([Ev.calendlyGet], Except.ok [])) ∧
    (∀ l : List CMember,
      extractEmails l = none ↔ ∃ m ∈ l, m.user.bind (fun u => u.email) = none) :=
  ⟨by decide, calendly_total_on_missing_structure cpBare 0 0 (by decide)⟩

/-- Claim C5: both fetchers lower-case every extracted email (extraction
is exactly the raw nested emails mapped through `pyLower`), so
`User@X.com` from the Calendly source and `user@x.com` from the Okta
source are counted as one matched license. -/
theorem email_matching_case_insensitive :
    (∀ l : List CMember,
      extractEmails l =
        (l.traverse (fun (m : CMember) => m.user.bind (fun u => u.email))).map
          (fun es => es.map pyLower)) ∧
    (∀ l : List OktaUser,
      oktaExtract l =
        (l.traverse (fun (u : OktaUser) => u.profile.bind (fun p => p.email))).map
          (fun es => es.map pyLower)) ∧
    fetch_calendly_users cpCase 1 = ([Ev.calendlyGet], Except.ok {"user@x.com"}) ∧
    fetch_okta_group_members opCase 1 = ([Ev.oktaGet], Except.ok {"user@x.com"}) ∧
    (calculate_license_counts {"user@x.com"} {"user@x.com"}).licenses_used = 1 := by
  refine ⟨?_, ?_, by decide, by decide, by decide⟩
  · intro l
    induction l with
    | nil => rfl
    | cons m rest ih =>
      cases hm : m.user.bind (fun u => u.email) with
      | none => simp [extractEmails, List.traverse, hm, Seq.seq]
      | some e =>
        simp only [extractEmails, List.traverse, hm, ih]
        cases hr : rest.traverse (fun (m : CMember) => m.user.bind fun u => u.email) with
        | none => simp [hr, Seq.seq]
        | some es => simp [hr, Seq.seq]
  · intro l
    induction l with
    | nil => rfl
    | cons u rest ih =>
      cases hu : u.profile.bind (fun p => p.email) with
      | none => simp [oktaExtract, List.traverse, hu, Seq.seq]
      | some e =>
        simp only [oktaExtract, List.traverse, hu, ih]
        cases hr : rest.traverse (fun (u : OktaUser) => u.profile.bind fun p => p.email) with
        | none => simp [hr, Seq.seq]
        | some es => simp [hr, Seq.seq]

/-- Claim C7: for any inputs whose intersection has exactly 70 emails, the
run computes used = 70 and available = −5, selects the overage template,
and the rendered message contains the substring `Overage: 5`. -/
theorem overage_scenario (A B : Finset String) (h : (A ∩ B).card = 70) :
    (calculate_license_counts A B).licenses_used = 70 ∧
    (calculate_license_counts A B).licenses_available = -5 ∧
    selectTemplate (calculate_license_counts A B) = Template.overage ∧
    strContains (alertMessage (calculate_license_counts A B)) "Overage: 5" = true := by
  have hlc : calculate_license_counts A B =
      { total_licenses := 65, licenses_used := 70, licenses_available := -5 } := by
    simp only [calculate_license_counts, TOTAL_LICENSES, h]
    decide
  rw [hlc]
  exact ⟨rfl, rfl, by decide, by decide⟩

/-- Witness for claim C7: a 70-element set intersected with itself. -/
theorem overage_scenario_witness :
    (bigSet ∩ bigSet).card = 70 ∧
    ((calculate_license_counts bigSet bigSet).licenses_used = 70 ∧
     (calculate_license_counts bigSet bigSet).licenses_available = -5 ∧
     selectTemplate (calculate_license_counts bigSet bigSet) = Template.overage ∧
     strContains (alertMessage (calculate_license_counts bigSet bigSet)) "Overage: 5"
       = true) := by
  have h70 : (bigSet ∩ bigSet).card = 70 := by
    rw [Finset.inter_self]
    decide
  exact ⟨h70, overage_scenario bigSet bigSet h70⟩
